import Mathlib

/-!
Shallow embedding of the readline repository: the completion engine
(opCompleter), the escape-sequence decoder and terminal event-loop step,
the terminal shutdown path, and the prefix-tree completer, together with
theorems checking the specification's claims about them.

Go machine integers are modelled as Int with explicit truncated division
and remainder (goDiv / goMod below); rune slices as List Char; fallible
results as Option.  Collaborators that the source file set does not
contain (the runes helper package, the line buffer, strconv / strings from
the Go standard library) are modelled from the spec where noted.
-/

namespace Readline

/-- Go integer division: truncation toward zero, as in the source. -/
def goDiv (a b : Int) : Int := Int.tdiv a b

/-- Go integer remainder: sign of the dividend, as in the source. -/
def goMod (a b : Int) : Int := Int.tmod a b

/-! Logical key constants, from the constant block of terminal.go. -/

def CharLineStart : Int := 1

def CharBackward : Int := 2

def CharInterrupt : Int := 3

def CharDelete : Int := 4

def CharLineEnd : Int := 5

def CharForward : Int := 6

def CharBell : Int := 7

def CharTab : Int := 9

def CharCtrlJ : Int := 10

def CharEnter : Int := 13

def CharNext : Int := 14

def CharPrev : Int := 16

def CharTranspose : Int := 20

def CharEsc : Int := 27

def CharO : Int := 79

def CharEscapeEx : Int := 91

def CharBackspace : Int := 127

def MetaBackward : Int := -1

def MetaForward : Int := -2

def MetaDelete : Int := -3

def MetaBackspace : Int := -4

def MetaTranspose : Int := -5

/-- Modelled from the spec: the line-buffer collaborator (out of scope for
the source files, spec section 6) stores the current input line and the
cursor offset idx. -/
structure Buffer where
  content : List Char
  idx : Nat
deriving DecidableEq

/-- Modelled from the spec: writeRunes commits text into the line buffer at
the cursor and advances the cursor past it. -/
def Buffer.writeRunes (b : Buffer) (rs : List Char) : Buffer :=
  { content := b.content.take b.idx ++ rs ++ b.content.drop b.idx
    idx := b.idx + rs.length }

/-- The opCompleter state (part_000 lines 27-53).  Field names follow the
source; the line buffer is included because the engine reads and writes it.
candidateSource is an Option because the source distinguishes a nil
snapshot from a present one. -/
structure CompleterState where
  width : Int
  inCompleteMode : Bool
  inSelectMode : Bool
  candidate : List (List Char)
  candidateComments : List (List Char)
  candidateSource : Option (List Char)
  candidateOff : Int
  candidateChoise : Int
  candidateColNum : Int
  buf : Buffer
deriving DecidableEq

/-- The grid-layout arithmetic of CompleteRefresh (part_000 lines 209-228).
vw is the display-width function (runes.WidthAll, a helper not under src/,
passed as a parameter).  Comments are indexed positionally exactly as the
source indexes candidateComments[i] (the source panics when the comment
list is shorter; getD totalizes that, and theorems assume equal lengths).
Returns (column width, column count). -/
def completeRefreshLayout (vw : List Char → Nat) (s : CompleterState) : Int × Int :=
  let colWidth : Int := (s.candidate.enum).foldl
    (fun cw ic =>
      let w : Int := (vw ic.2 : Int) + (vw (s.candidateComments.getD ic.1 []) : Int)
      if w > cw then w else cw) 0
  let colWidth := colWidth + s.candidateOff + 1
  let width := s.width - 1
  let colNum := goDiv width colWidth
  let colWidth := if colNum ≠ 0 then colWidth + goDiv (width - colWidth * colNum) colNum
    else colWidth
  (colWidth, colNum)

/-- State effect of CompleteRefresh (part_000 lines 202-277): a no-op unless
in complete mode; otherwise it stores the computed column count in
candidateColNum.  The escape-code output it writes is not part of the
engine state and is not modelled. -/
def completeRefresh (vw : List Char → Nat) (s : CompleterState) : CompleterState :=
  if s.inCompleteMode then { s with candidateColNum := (completeRefreshLayout vw s).2 }
  else s

/-- ExitCompleteSelectMode (part_000 lines 311-318). -/
def exitCompleteSelectMode (s : CompleterState) : CompleterState :=
  { s with inSelectMode := false, candidate := [], candidateComments := [],
           candidateChoise := -1, candidateOff := -1, candidateSource := none }

/-- ExitCompleteMode (part_000 lines 320-323); the revent argument is unused
by the source body. -/
def exitCompleteMode (_revent : Bool) (s : CompleterState) : CompleterState :=
  exitCompleteSelectMode { s with inCompleteMode := false }

/-- EnterCompleteSelectMode (part_000 lines 296-300). -/
def enterCompleteSelectMode (vw : List Char → Nat) (s : CompleterState) : CompleterState :=
  completeRefresh vw { s with inSelectMode := true, candidateChoise := -1 }

/-- EnterCompleteMode (part_000 lines 303-309). -/
def enterCompleteMode (vw : List Char → Nat) (offset : Int)
    (cand comments : List (List Char)) (s : CompleterState) : CompleterState :=
  completeRefresh vw
    { s with inCompleteMode := true, candidate := cand,
             candidateComments := comments, candidateOff := offset }

/-- nextCandidate (part_000 lines 73-79). -/
def nextCandidate (i : Int) (s : CompleterState) : CompleterState :=
  let c := goMod (s.candidateChoise + i) (s.candidate.length : Int)
  { s with candidateChoise := if c < 0 then (s.candidate.length : Int) + c else c }

/-- doSelect (part_000 lines 63-71). -/
def doSelect (vw : List Char → Nat) (s : CompleterState) : CompleterState :=
  if s.candidate.length = 1 then
    exitCompleteMode false { s with buf := s.buf.writeRunes (s.candidate.headD []) }
  else
    completeRefresh vw (nextCandidate 1 s)

/-- getMatrixSize (part_000 lines 190-196). -/
def getMatrixSize (s : CompleterState) : Int :=
  let line := goDiv (s.candidate.length : Int) s.candidateColNum
  let line := if goMod (s.candidate.length : Int) s.candidateColNum ≠ 0 then line + 1
    else line
  line * s.candidateColNum

/-- HandleCompleteSelect (part_000 lines 135-188).  The Go switch becomes an
if chain in source order; the Enter branch's candidate[candidateChoise]
index is totalized with getD (the source panics when it is out of range). -/
def handleCompleteSelect (vw : List Char → Nat) (r : Int) (s : CompleterState) :
    CompleterState × Bool :=
  let step : CompleterState × Bool :=
    if r = CharEnter ∨ r = CharCtrlJ then
      (exitCompleteMode false
        { s with buf := s.buf.writeRunes (s.candidate.getD s.candidateChoise.toNat []) },
       false)
    else if r = CharLineStart then
      let num := goMod s.candidateChoise s.candidateColNum
      (nextCandidate (-num) s, true)
    else if r = CharLineEnd then
      let num := s.candidateColNum - goMod s.candidateChoise s.candidateColNum - 1
      let c := s.candidateChoise + num
      let c := if c ≥ (s.candidate.length : Int) then (s.candidate.length : Int) - 1 else c
      ({ s with candidateChoise := c }, true)
    else if r = CharBackspace then
      (exitCompleteSelectMode s, false)
    else if r = CharTab ∨ r = CharForward then
      (doSelect vw s, true)
    else if r = CharBell ∨ r = CharInterrupt then
      (exitCompleteMode true s, false)
    else if r = CharNext then
      let tmp := s.candidateChoise + s.candidateColNum
      let m := getMatrixSize s
      let tmp :=
        if tmp ≥ m then tmp - m
        else if tmp ≥ (s.candidate.length : Int) then tmp + s.candidateColNum - m
        else tmp
      ({ s with candidateChoise := tmp }, true)
    else if r = CharBackward then
      (nextCandidate (-1) s, true)
    else if r = CharPrev then
      let tmp := s.candidateChoise - s.candidateColNum
      let tmp :=
        if tmp < 0 then
          let t := tmp + getMatrixSize s
          if t ≥ (s.candidate.length : Int) then t - s.candidateColNum else t
        else tmp
      ({ s with candidateChoise := tmp }, true)
    else
      (exitCompleteSelectMode s, false)
  if step.2 then (completeRefresh vw step.1, true) else step

/-- Modelled from the spec: runes.Aggregate (helper not under src/) yields
the longest prefix shared by every candidate together with its length
(the auto-expand shortcut of spec section 4.3). -/
def commonPrefix2 : List Char → List Char → List Char
  | x :: xs, y :: ys => if x = y then x :: commonPrefix2 xs ys else []
  | _, _ => []

/-- Modelled from the spec: see commonPrefix2. -/
def aggregate : List (List Char) → List Char × Int
  | [] => ([], 0)
  | c :: rest =>
    let p := rest.foldl commonPrefix2 c
    (p, (p.length : Int))

/-- The fresh-trigger tail of OnComplete (part_000 lines 99-124): leave any
select sub-mode, snapshot the buffer, query the provider and dispatch on
the candidate count.  autoComplete stands for o.op.cfg.AutoComplete.Do. -/
def onCompleteFresh (vw : List Char → Nat)
    (autoComplete : List Char → Nat → List (List Char) × List (List Char) × Int)
    (s : CompleterState) : CompleterState × Bool :=
  let s := exitCompleteSelectMode s
  let rs := s.buf.content
  let s := { s with candidateSource := some rs }
  let res := autoComplete rs s.buf.idx
  let newLines := res.1
  let commentLines := res.2.1
  let offset := res.2.2
  if newLines.length = 0 then
    (exitCompleteMode false s, true)
  else if s.inCompleteMode = false ∧ newLines.length = 1 then
    (exitCompleteMode false { s with buf := s.buf.writeRunes (newLines.headD []) }, true)
  else if s.inCompleteMode = false ∧ 0 < (aggregate newLines).2 then
    (exitCompleteMode false { s with buf := s.buf.writeRunes (aggregate newLines).1 }, true)
  else
    (enterCompleteMode vw offset newLines commentLines s, true)

/-- OnComplete (part_000 lines 81-125).  The re-entry test models
"candidateSource != nil && runes.Equal(rs, candidateSource)" as equality
with some rs (runes.Equal, not under src/, is elementwise slice equality
per the spec's "buffer is byte-identical to the snapshot"). -/
def onComplete (vw : List Char → Nat)
    (autoComplete : List Char → Nat → List (List Char) × List (List Char) × Int)
    (s : CompleterState) : CompleterState × Bool :=
  if s.width = 0 then (s, false)
  else if s.inSelectMode then (doSelect vw s, true)
  else if s.inCompleteMode = true ∧ s.candidateSource = some s.buf.content then
    (doSelect vw (enterCompleteSelectMode vw s), true)
  else
    onCompleteFresh vw autoComplete s

/-! The escape-sequence decoder (terminal.go). -/

/-- escapeKeyPair (terminal.go lines 514-517): the semicolon/digit attribute
runes accumulated before the type letter of a CSI or SS3 sequence. -/
structure EscapeKeyPair where
  attr : List Char
  typ : Char
deriving DecidableEq

/-- escapeExKey (terminal.go lines 469-491): translate Esc[X. -/
def escapeExKey (key : EscapeKeyPair) : Int :=
  if key.typ = 'D' then CharBackward
  else if key.typ = 'C' then CharForward
  else if key.typ = 'A' then CharPrev
  else if key.typ = 'B' then CharNext
  else if key.typ = 'H' then CharLineStart
  else if key.typ = 'F' then CharLineEnd
  else if key.typ = '~' then (if key.attr = ['3'] then CharDelete else 0)
  else 0

/-- escapeSS3Key (terminal.go lines 494-512): translate EscOX. -/
def escapeSS3Key (key : EscapeKeyPair) : Int :=
  if key.typ = 'D' then CharBackward
  else if key.typ = 'C' then CharForward
  else if key.typ = 'A' then CharPrev
  else if key.typ = 'B' then CharNext
  else if key.typ = 'H' then CharLineStart
  else if key.typ = 'F' then CharLineEnd
  else 0

/-- Modelled from the Go standard library: strings.Split with a single-rune
separator, as Get2 uses it. -/
def splitOnChar (sep : Char) : List Char → List (List Char)
  | [] => [[]]
  | c :: rest =>
    let r := splitOnChar sep rest
    if c = sep then [] :: r else (c :: r.headD []) :: r.tail

/-- Decimal value of a digit string. -/
def digitsToNat (ds : List Char) : Nat :=
  ds.foldl (fun a c => a * 10 + (c.toNat - 48)) 0

/-- Modelled from the Go standard library: strconv.Atoi on the inputs that
occur here (optional sign then decimal digits; none models the error
return; machine-width overflow is not modelled). -/
def atoi (cs : List Char) : Option Int :=
  let signAndDigits : Int × List Char :=
    match cs with
    | '+' :: t => (1, t)
    | '-' :: t => (-1, t)
    | t => (1, t)
  let ds := signAndDigits.2
  if ds ≠ [] ∧ ds.all (fun c => c.isDigit) then
    some (signAndDigits.1 * (digitsToNat ds : Int))
  else none

/-- Get2 (terminal.go lines 519-533): split the attribute on the semicolon
and parse the first two fields as integers; none models the ok=false
return (-1, -1, false). -/
def get2 (key : EscapeKeyPair) : Option (Int × Int) :=
  let sp := splitOnChar ';' key.attr
  if sp.length < 2 then none
  else
    match atoi (sp.getD 0 []) with
    | none => none
    | some s1 =>
      match atoi (sp.getD 1 []) with
      | none => none
      | some s2 => some (s1, s2)

/-- readEscKey (terminal.go lines 535-550) over a pending input list: the
current rune is accumulated while it is a semicolon or a digit, and the
first other rune becomes the type letter.  When the input runs out the
source's failed ReadRune leaves rune 0, which then stops the loop with
type 0; unicode.IsNumber coincides with isDigit on the ASCII input the
decoder receives. -/
def readEscKeyAux : List Char → Char → List Char → EscapeKeyPair × List Char
  | acc, r, [] =>
    if r = ';' ∨ r.isDigit then ({ attr := acc ++ [r], typ := Char.ofNat 0 }, [])
    else ({ attr := acc, typ := r }, [])
  | acc, r, r2 :: rest =>
    if r = ';' ∨ r.isDigit then readEscKeyAux (acc ++ [r]) r2 rest
    else ({ attr := acc, typ := r }, r2 :: rest)

/-- See readEscKeyAux. -/
def readEscKey (r : Char) (input : List Char) : EscapeKeyPair × List Char :=
  readEscKeyAux [] r input

/-- escapeKey (terminal.go lines 553-579): translate EscX to Meta+X, with
one rune of lookahead (and unread) for the EscO H/F forms. -/
def escapeKey (r : Char) (input : List Char) : Int × List Char :=
  if r = 'b' then (MetaBackward, input)
  else if r = 'f' then (MetaForward, input)
  else if r = 'd' then (MetaDelete, input)
  else if (r.toNat : Int) = CharTranspose then (MetaTranspose, input)
  else if (r.toNat : Int) = CharBackspace then (MetaBackspace, input)
  else if r = 'O' then
    match input with
    | [] => ((r.toNat : Int), [])
    | d :: rest =>
      if d = 'H' then (CharLineStart, rest)
      else if d = 'F' then (CharLineEnd, rest)
      else ((r.toNat : Int), d :: rest)
  else ((r.toNat : Int), input)

/-- The escape-tracking flags local to ioloop (terminal.go lines 132-141). -/
structure LoopState where
  isEscape : Bool
  isEscapeEx : Bool
  isEscapeSS3 : Bool
deriving DecidableEq

/-- Result of one iteration of the ioloop body: updated flags, remaining
pending input, the size-report slot (sizeChan, capacity 1), the keys sent
to outchan, and the expectNextChar flag. -/
structure IoResult where
  state : LoopState
  pending : List Char
  sizeSlot : Option (List Char)
  emitted : List Int
  expectNextChar : Bool
deriving DecidableEq

/-- The non-blocking send on sizeChan (capacity 1): deliver when the slot
has room, silently drop otherwise. -/
def sendSizeReport (slot : Option (List Char)) (attr : List Char) : Option (List Char) :=
  match slot with
  | none => some attr
  | some x => some x

/-- The trailing switch of the ioloop body (terminal.go lines 235-261):
CharEsc starts an escape (emitting ESC itself only in vim mode); the four
session-significant keys clear expectNextChar; everything else is emitted
with expectNextChar kept true. -/
def dispatchKey (vimMode : Bool) (st : LoopState) (r : Int) (pending : List Char)
    (slot : Option (List Char)) : IoResult :=
  if r = CharEsc then
    { state := { st with isEscape := true }, pending := pending, sizeSlot := slot,
      emitted := if vimMode then [r] else [], expectNextChar := true }
  else if r = CharInterrupt ∨ r = CharEnter ∨ r = CharCtrlJ ∨ r = CharDelete then
    { state := st, pending := pending, sizeSlot := slot, emitted := [r],
      expectNextChar := false }
  else
    { state := st, pending := pending, sizeSlot := slot, emitted := [r],
      expectNextChar := true }

/-- The isEscapeEx arm of the ioloop body (terminal.go lines 204-223) after
readEscKey: a type-R cursor-position report is checked with Get2 and, on
success, delivered to the size slot, and never emitted as a key; a rune 0
translation is swallowed; anything else is dispatched. -/
def csiHandle (vimMode : Bool) (st : LoopState) (key : EscapeKeyPair) (pending : List Char)
    (slot : Option (List Char)) : IoResult :=
  let r := escapeExKey key
  if key.typ = 'R' then
    let slot := if (get2 key).isSome then sendSizeReport slot key.attr else slot
    { state := st, pending := pending, sizeSlot := slot, emitted := [],
      expectNextChar := true }
  else if r = 0 then
    { state := st, pending := pending, sizeSlot := slot, emitted := [],
      expectNextChar := true }
  else dispatchKey vimMode st r pending slot

/-- The isEscapeSS3 arm of the ioloop body (terminal.go lines 224-233). -/
def ss3Handle (vimMode : Bool) (st : LoopState) (key : EscapeKeyPair) (pending : List Char)
    (slot : Option (List Char)) : IoResult :=
  let r := escapeSS3Key key
  if r = 0 then
    { state := st, pending := pending, sizeSlot := slot, emitted := [],
      expectNextChar := true }
  else dispatchKey vimMode st r pending slot

/-- One iteration of the ioloop body (terminal.go lines 181-261) on the rune
r0 just read, with the rest of the available input as the lookahead the
escape translators may consume. -/
def ioloopStep (vimMode : Bool) (st : LoopState) (r0 : Char) (pending : List Char)
    (slot : Option (List Char)) : IoResult :=
  if st.isEscape then
    let st := { st with isEscape := false }
    if (r0.toNat : Int) = CharEscapeEx then
      { state := { st with isEscapeEx := true }, pending := pending, sizeSlot := slot,
        emitted := [], expectNextChar := true }
    else if (r0.toNat : Int) = CharO then
      { state := { st with isEscapeSS3 := true }, pending := pending, sizeSlot := slot,
        emitted := [], expectNextChar := true }
    else
      let rp := escapeKey r0 pending
      dispatchKey vimMode st rp.1 rp.2 slot
  else if st.isEscapeEx then
    let st := { st with isEscapeEx := false }
    let kp := readEscKey r0 pending
    csiHandle vimMode st kp.1 kp.2 slot
  else if st.isEscapeSS3 then
    let st := { st with isEscapeSS3 := false }
    let kp := readEscKey r0 pending
    ss3Handle vimMode st kp.1 kp.2 slot
  else
    dispatchKey vimMode st (r0.toNat : Int) pending slot

/-- Read-then-process: the ioloop reads one rune from the input (line 181)
and runs the body on it; none models an empty input source. -/
def ioloopRead (vimMode : Bool) (st : LoopState) (input : List Char)
    (slot : Option (List Char)) : Option IoResult :=
  match input with
  | [] => none
  | r :: rest => some (ioloopStep vimMode st r rest slot)

/-- ReadRune (terminal.go lines 99-105): one receive from the key channel;
none models the closed channel (ok = false), which yields rune 0. -/
def terminalReadRune (recv : Option Int) : Int :=
  match recv with
  | none => 0
  | some ch => ch

/-! The terminal shutdown path (terminal.go Close). -/

/-- Terminal lifecycle state for Close (terminal.go lines 270-280).  The
release steps are recorded as counters and flags so that a repeated
release would be observable; exitRawErr is the value FuncExitRaw would
report. -/
structure TermState where
  closed : Bool
  stdinIsCloser : Bool
  stdinCloseCount : Nat
  stopChanClosed : Bool
  loopWaited : Bool
  rawRestoreCount : Nat
  exitRawErr : Option (List Char)
deriving DecidableEq

/-- Close (terminal.go lines 270-280).  The atomic swap of t.closed is the
guard; the wg.Wait on the reader loop is abstracted as the loopWaited
flag (the loop exits once stopChan is closed). -/
def closeTerminal (t : TermState) : TermState × Option (List Char) :=
  if t.closed then (t, none)
  else
    let t := { t with closed := true }
    let t := if t.stdinIsCloser then { t with stdinCloseCount := t.stdinCloseCount + 1 }
      else t
    let t := { t with stopChanClosed := true, loopWaited := true }
    let t := { t with rawRestoreCount := t.rawRestoreCount + 1 }
    (t, t.exitRawErr)

/-! The prefix-tree completer (second source file of part_000). -/

/-- PrefixCompleter (part_000 lines 349-356): a tree node with a static
name and comment, or a dynamic callback; the DynamicComplete callback
returns parallel name and comment lists. -/
inductive PrefixCompleter where
  | node (name comment : List Char) (dynamic : Bool)
      (callback : List Char → List (List Char) × List (List Char))
      (children : List PrefixCompleter)

/-- GetChildren. -/
def PrefixCompleter.children : PrefixCompleter → List PrefixCompleter
  | .node _ _ _ _ ch => ch

/-- GetName. -/
def PrefixCompleter.getName : PrefixCompleter → List Char
  | .node n _ _ _ _ => n

/-- GetComment. -/
def PrefixCompleter.getComment : PrefixCompleter → List Char
  | .node _ c _ _ _ => c

/-- IsDynamic. -/
def PrefixCompleter.isDynamic : PrefixCompleter → Bool
  | .node _ _ d _ _ => d

/-- The Callback field. -/
def PrefixCompleter.callback :
    PrefixCompleter → (List Char → List (List Char) × List (List Char))
  | .node _ _ _ cb _ => cb

/-- GetDynamicNames (part_000 lines 395-404): each dynamic name gets a
trailing separator space; comments are passed through. -/
def getDynamicNames (p : PrefixCompleter) (origLine : List Char) :
    List (List Char) × List (List Char) :=
  let nc := p.callback origLine
  (nc.1.map (fun n => n ++ [' ']), nc.2)

/-- PcItem (part_000 lines 418-426): a static node; the name is stored with
a trailing separator space appended. -/
def PcItem (name comment : List Char) (pc : List PrefixCompleter) : PrefixCompleter :=
  .node (name ++ [' ']) comment false (fun _ => ([], [])) pc

/-- NewPrefixCompleter (part_000 lines 414-416). -/
def NewPrefixCompleter (pc : List PrefixCompleter) : PrefixCompleter :=
  PcItem [] [] pc

/-- Modelled from the spec: runes.TrimSpaceLeft (helper not under src/)
trims leading whitespace. -/
def trimSpaceLeft (l : List Char) : List Char :=
  l.dropWhile (fun c => c.isWhitespace)

/-- Accumulator of the child scan inside doInternal (part_000 lines
446-481): candidates, comments, the shared offset, the child recorded for
descent, and the full-token goNext flag. -/
structure ScanAcc where
  newLine : List (List Char)
  commentLine : List (List Char)
  offset : Nat
  comp : Option PrefixCompleter
  goNext : Bool

/-- The child scan of doInternal (part_000 lines 448-481).  For each child
the effective name/comment lists are its static pair or its dynamic
resolution over the whole original line; a full-token match records the
child and goNext (emitting a lone space when exact-length), a proper
prefix match emits the unmatched suffix with its comment.  The source
indexes commentNames[i] positionally; getD totalizes that.
runes.HasPrefix (not under src/) is the list prefix test. -/
def scanChildren (children : List PrefixCompleter) (l origLine : List Char) : ScanAcc :=
  children.foldl (fun acc child =>
    let names :=
      if child.isDynamic then getDynamicNames child origLine
      else ([child.getName], [child.getComment])
    (names.1.enum).foldl (fun acc2 ic =>
      let i := ic.1
      let childName := ic.2
      if l.length ≥ childName.length then
        if childName.isPrefixOf l then
          { acc2 with
              newLine := acc2.newLine ++
                [if l.length = childName.length then [' '] else childName],
              offset := childName.length, comp := some child, goNext := true }
        else acc2
      else
        if l.isPrefixOf childName then
          { acc2 with
              newLine := acc2.newLine ++ [childName.drop l.length],
              commentLine := acc2.commentLine ++ [names.2.getD i []],
              offset := l.length, comp := some child }
        else acc2) acc)
    { newLine := [], commentLine := [], offset := 0, comp := none, goNext := false }

/-- doInternal (part_000 lines 444-501).  The fuel argument bounds the
recursion depth: the source only ever recurses into a child of the current
node, so any fuel exceeding the height of the tree computes the source
function's value, and the fuel-exhausted base case is unreachable on such
calls.  After the scan: with exactly one candidate, recurse into the
recorded child on the leftover non-space input past the offset, or with an
empty line on a full-token match; otherwise return the accumulation. -/
def doInternal : Nat → PrefixCompleter → List Char → Nat → List Char →
    List (List Char) × List (List Char) × Nat
  | 0, _, _, _, _ => ([], [], 0)
  | fuel + 1, p, line, pos, origLine =>
    let l := trimSpaceLeft (line.take pos)
    let acc := scanChildren p.children l origLine
    if acc.newLine.length = 1 then
      let leftover := (l.drop acc.offset).dropWhile (fun c => c = ' ')
      if leftover.length ≠ 0 then
        match acc.comp with
        | some c => doInternal fuel c leftover leftover.length origLine
        | none => (acc.newLine, acc.commentLine, acc.offset)
      else if acc.goNext then
        match acc.comp with
        | some c => doInternal fuel c [] 0 origLine
        | none => (acc.newLine, acc.commentLine, acc.offset)
      else (acc.newLine, acc.commentLine, acc.offset)
    else (acc.newLine, acc.commentLine, acc.offset)

/-- Do (part_000 lines 436-442): match against the whole line, which also
becomes origLine for dynamic resolution.  fuel as in doInternal. -/
def PrefixCompleter.doMatch (fuel : Nat) (p : PrefixCompleter) (line : List Char)
    (pos : Nat) : List (List Char) × List (List Char) × Nat :=
  doInternal fuel p line pos line

/-! Concrete instances used by the example-based theorems below. -/

/-- A display-width function for the concrete examples: one column per rune. -/
def vwOne : List Char → Nat := fun l => l.length

/-- A 7-candidate, 3-column selecting state (the spec section 8 grid
example). -/
def gridState : CompleterState :=
  { width := 40, inCompleteMode := true, inSelectMode := true,
    candidate := List.replicate 7 ['x'], candidateComments := List.replicate 7 [],
    candidateSource := some ['x'], candidateOff := 1, candidateChoise := 5,
    candidateColNum := 3, buf := { content := ['x'], idx := 1 } }

/-- The status node of the spec's prefix-matcher example, given one child so
that the descent after a full-token match is observable. -/
def statusNode : PrefixCompleter :=
  PcItem "status".toList "stc".toList [PcItem "verbose".toList "vbc".toList []]

/-- The show node of the spec's prefix-matcher example. -/
def showNode : PrefixCompleter := PcItem "show".toList "shc".toList []

/-- The spec's example tree: root children status and show. -/
def demoTree : PrefixCompleter := NewPrefixCompleter [statusNode, showNode]

/-- A state already in complete mode whose snapshot differs from the buffer,
so that the next trigger is a fresh trigger in the sense of the spec. -/
def freshDemoState : CompleterState :=
  { width := 80, inCompleteMode := true, inSelectMode := false,
    candidate := [['a'], ['b']], candidateComments := [[], []],
    candidateSource := some ['x'], candidateOff := 0, candidateChoise := 0,
    candidateColNum := 1, buf := { content := ['y'], idx := 1 } }

/-- A provider returning exactly one candidate. -/
def singletonProvider : List Char → Nat → List (List Char) × List (List Char) × Int :=
  fun _ _ => ([['z']], [[]], 1)

/-- A two-candidate selecting state used by the select-mode examples. -/
def selectDemoState : CompleterState :=
  { width := 40, inCompleteMode := true, inSelectMode := true,
    candidate := [['a'], ['b']], candidateComments := [[], []],
    candidateSource := some ['y'], candidateOff := 1, candidateChoise := 0,
    candidateColNum := 2, buf := { content := ['y'], idx := 1 } }

/-- A terminal not yet closed, with a closable stdin. -/
def termDemo : TermState :=
  { closed := false, stdinIsCloser := true, stdinCloseCount := 0,
    stopChanClosed := false, loopWaited := false, rawRestoreCount := 0,
    exitRawErr := none }

/-- The selection-mode bound of spec section 3: once selecting, the chosen
index lies in [0, number of candidates). -/
def selBound (s : CompleterState) : Prop :=
  s.inSelectMode = true →
    0 ≤ s.candidateChoise ∧ s.candidateChoise < (s.candidate.length : Int)

/-! Projection helper lemmas: which fields each engine operation leaves
unchanged, and the constants the others are set to. -/

@[simp] theorem completeRefresh_width (vw : List Char → Nat) (s : CompleterState) :
    (completeRefresh vw s).width = s.width := by
  unfold completeRefresh; split <;> rfl

@[simp] theorem completeRefresh_inCompleteMode (vw : List Char → Nat) (s : CompleterState) :
    (completeRefresh vw s).inCompleteMode = s.inCompleteMode := by
  unfold completeRefresh; split <;> rfl

@[simp] theorem completeRefresh_inSelectMode (vw : List Char → Nat) (s : CompleterState) :
    (completeRefresh vw s).inSelectMode = s.inSelectMode := by
  unfold completeRefresh; split <;> rfl

@[simp] theorem completeRefresh_candidate (vw : List Char → Nat) (s : CompleterState) :
    (completeRefresh vw s).candidate = s.candidate := by
  unfold completeRefresh; split <;> rfl

@[simp] theorem completeRefresh_candidateComments (vw : List Char → Nat) (s : CompleterState) :
    (completeRefresh vw s).candidateComments = s.candidateComments := by
  unfold completeRefresh; split <;> rfl

@[simp] theorem completeRefresh_candidateSource (vw : List Char → Nat) (s : CompleterState) :
    (completeRefresh vw s).candidateSource = s.candidateSource := by
  unfold completeRefresh; split <;> rfl

@[simp] theorem completeRefresh_candidateOff (vw : List Char → Nat) (s : CompleterState) :
    (completeRefresh vw s).candidateOff = s.candidateOff := by
  unfold completeRefresh; split <;> rfl

@[simp] theorem completeRefresh_candidateChoise (vw : List Char → Nat) (s : CompleterState) :
    (completeRefresh vw s).candidateChoise = s.candidateChoise := by
  unfold completeRefresh; split <;> rfl

@[simp] theorem completeRefresh_buf (vw : List Char → Nat) (s : CompleterState) :
    (completeRefresh vw s).buf = s.buf := by
  unfold completeRefresh; split <;> rfl

@[simp] theorem exitCompleteSelectMode_width (s : CompleterState) :
    (exitCompleteSelectMode s).width = s.width := rfl

@[simp] theorem exitCompleteSelectMode_inCompleteMode (s : CompleterState) :
    (exitCompleteSelectMode s).inCompleteMode = s.inCompleteMode := rfl

@[simp] theorem exitCompleteSelectMode_inSelectMode (s : CompleterState) :
    (exitCompleteSelectMode s).inSelectMode = false := rfl

@[simp] theorem exitCompleteSelectMode_candidate (s : CompleterState) :
    (exitCompleteSelectMode s).candidate = [] := rfl

@[simp] theorem exitCompleteSelectMode_candidateComments (s : CompleterState) :
    (exitCompleteSelectMode s).candidateComments = [] := rfl

@[simp] theorem exitCompleteSelectMode_candidateSource (s : CompleterState) :
    (exitCompleteSelectMode s).candidateSource = none := rfl

@[simp] theorem exitCompleteSelectMode_candidateOff (s : CompleterState) :
    (exitCompleteSelectMode s).candidateOff = -1 := rfl

@[simp] theorem exitCompleteSelectMode_candidateChoise (s : CompleterState) :
    (exitCompleteSelectMode s).candidateChoise = -1 := rfl

@[simp] theorem exitCompleteSelectMode_buf (s : CompleterState) :
    (exitCompleteSelectMode s).buf = s.buf := rfl

@[simp] theorem exitCompleteMode_width (b : Bool) (s : CompleterState) :
    (exitCompleteMode b s).width = s.width := rfl

@[simp] theorem exitCompleteMode_inCompleteMode (b : Bool) (s : CompleterState) :
    (exitCompleteMode b s).inCompleteMode = false := rfl

@[simp] theorem exitCompleteMode_inSelectMode (b : Bool) (s : CompleterState) :
    (exitCompleteMode b s).inSelectMode = false := rfl

@[simp] theorem exitCompleteMode_candidate (b : Bool) (s : CompleterState) :
    (exitCompleteMode b s).candidate = [] := rfl

@[simp] theorem exitCompleteMode_candidateComments (b : Bool) (s : CompleterState) :
    (exitCompleteMode b s).candidateComments = [] := rfl

@[simp] theorem exitCompleteMode_candidateSource (b : Bool) (s : CompleterState) :
    (exitCompleteMode b s).candidateSource = none := rfl

@[simp] theorem exitCompleteMode_candidateOff (b : Bool) (s : CompleterState) :
    (exitCompleteMode b s).candidateOff = -1 := rfl

@[simp] theorem exitCompleteMode_candidateChoise (b : Bool) (s : CompleterState) :
    (exitCompleteMode b s).candidateChoise = -1 := rfl

@[simp] theorem exitCompleteMode_buf (b : Bool) (s : CompleterState) :
    (exitCompleteMode b s).buf = s.buf := rfl

@[simp] theorem nextCandidate_width (i : Int) (s : CompleterState) :
    (nextCandidate i s).width = s.width := rfl

@[simp] theorem nextCandidate_inCompleteMode (i : Int) (s : CompleterState) :
    (nextCandidate i s).inCompleteMode = s.inCompleteMode := rfl

@[simp] theorem nextCandidate_inSelectMode (i : Int) (s : CompleterState) :
    (nextCandidate i s).inSelectMode = s.inSelectMode := rfl

@[simp] theorem nextCandidate_candidate (i : Int) (s : CompleterState) :
    (nextCandidate i s).candidate = s.candidate := rfl

@[simp] theorem nextCandidate_buf (i : Int) (s : CompleterState) :
    (nextCandidate i s).buf = s.buf := rfl

@[simp] theorem enterCompleteSelectMode_inSelectMode (vw : List Char → Nat)
    (s : CompleterState) : (enterCompleteSelectMode vw s).inSelectMode = true := by
  unfold enterCompleteSelectMode; simp

@[simp] theorem enterCompleteSelectMode_candidateChoise (vw : List Char → Nat)
    (s : CompleterState) : (enterCompleteSelectMode vw s).candidateChoise = -1 := by
  unfold enterCompleteSelectMode; simp

@[simp] theorem enterCompleteSelectMode_candidate (vw : List Char → Nat)
    (s : CompleterState) : (enterCompleteSelectMode vw s).candidate = s.candidate := by
  unfold enterCompleteSelectMode; simp

@[simp] theorem enterCompleteSelectMode_inCompleteMode (vw : List Char → Nat)
    (s : CompleterState) :
    (enterCompleteSelectMode vw s).inCompleteMode = s.inCompleteMode := by
  unfold enterCompleteSelectMode; simp

@[simp] theorem enterCompleteSelectMode_buf (vw : List Char → Nat) (s : CompleterState) :
    (enterCompleteSelectMode vw s).buf = s.buf := by
  unfold enterCompleteSelectMode; simp

@[simp] theorem enterCompleteMode_inCompleteMode (vw : List Char → Nat) (offset : Int)
    (cand comments : List (List Char)) (s : CompleterState) :
    (enterCompleteMode vw offset cand comments s).inCompleteMode = true := by
  unfold enterCompleteMode; simp

@[simp] theorem enterCompleteMode_inSelectMode (vw : List Char → Nat) (offset : Int)
    (cand comments : List (List Char)) (s : CompleterState) :
    (enterCompleteMode vw offset cand comments s).inSelectMode = s.inSelectMode := by
  unfold enterCompleteMode; simp

@[simp] theorem enterCompleteMode_candidate (vw : List Char → Nat) (offset : Int)
    (cand comments : List (List Char)) (s : CompleterState) :
    (enterCompleteMode vw offset cand comments s).candidate = cand := by
  unfold enterCompleteMode; simp

@[simp] theorem enterCompleteMode_buf (vw : List Char → Nat) (offset : Int)
    (cand comments : List (List Char)) (s : CompleterState) :
    (enterCompleteMode vw offset cand comments s).buf = s.buf := by
  unfold enterCompleteMode; simp

/-- C2: in select mode with 7 candidates and 3 columns (padded matrix
ceil(7/3)*3 = 9), handling Next from chosen index 5 wraps through the
9-cell matrix and corrects back into range, landing on index 2; handling
Prev from chosen index 1 wraps to cell 7 and is corrected one row up,
landing on index 4. -/
theorem grid_wraparound_next_prev :
    getMatrixSize gridState = 9 ∧
    (handleCompleteSelect vwOne CharNext gridState).1.candidateChoise = 2 ∧
    (handleCompleteSelect vwOne CharPrev
      { gridState with candidateChoise := 1 }).1.candidateChoise = 4 := by
  decide

/-- C4 counterexample: on the spec's example tree, Do at line "sta" and
position 3 yields the single candidate "tus " — with the trailing
separator space that PcItem appends to every stored name — so the claimed
candidate text "tus" is not what the matcher returns. -/
theorem prefix_matcher_sta_counterexample :
    ¬ (demoTree.doMatch 8 "sta".toList 3).1 = ["tus".toList] := by decide

/-- C4 (amended): Do on "sta" at 3 returns exactly one candidate, "tus "
(the unmatched suffix of the stored name, which carries the trailing
separator space PcItem appends), with shared offset 3; Do on "status " at
7 recurses into the status node with an empty remaining line, so that
node's children become the next candidate set. -/
theorem prefix_matcher_demo :
    demoTree.doMatch 8 "sta".toList 3 = (["tus ".toList], ["stc".toList], 3) ∧
    demoTree.doMatch 8 "status ".toList 7 = doInternal 7 statusNode [] 0 "status ".toList ∧
    demoTree.doMatch 8 "status ".toList 7 = (["verbose ".toList], ["vbc".toList], 0) := by
  decide

/-- C7: Close is idempotent.  A first call on an unclosed terminal closes
the stdin handle exactly when it is a closer, signals the stop channel,
waits for the reader loop, restores the terminal mode once and reports
the restore result; the second call returns nil immediately and releases
nothing again (the state is unchanged). -/
theorem closeTerminal_idempotent (t : TermState) (h : t.closed = false) :
    (closeTerminal t).1.closed = true ∧
    (t.stdinIsCloser = true → (closeTerminal t).1.stdinCloseCount = t.stdinCloseCount + 1) ∧
    (t.stdinIsCloser = false → (closeTerminal t).1.stdinCloseCount = t.stdinCloseCount) ∧
    (closeTerminal t).1.stopChanClosed = true ∧
    (closeTerminal t).1.loopWaited = true ∧
    (closeTerminal t).1.rawRestoreCount = t.rawRestoreCount + 1 ∧
    (closeTerminal t).2 = t.exitRawErr ∧
    closeTerminal (closeTerminal t).1 = ((closeTerminal t).1, none) := by
  by_cases hc : t.stdinIsCloser <;> simp [closeTerminal, h, hc]

/-- C7 witness: the theorem applied to the concrete unclosed terminal. -/
theorem closeTerminal_idempotent_witness :
    termDemo.closed = false ∧
    (closeTerminal (closeTerminal termDemo).1 = ((closeTerminal termDemo).1, none) ∧
      (closeTerminal termDemo).1.rawRestoreCount = termDemo.rawRestoreCount + 1) :=
  ⟨by decide,
   (closeTerminal_idempotent termDemo (by decide)).2.2.2.2.2.2.2,
   (closeTerminal_idempotent termDemo (by decide)).2.2.2.2.2.1⟩

/-- C10: ReadRune yields rune 0 on a closed key channel (end of stream),
and a NUL byte read in the normal decoder state is emitted downstream as
the ordinary key 0, so a ReadRune caller cannot tell the two apart. -/
theorem readRune_nul_eof_ambiguity (vim : Bool) (rest : List Char)
    (slot : Option (List Char)) :
    terminalReadRune none = 0 ∧
    terminalReadRune (some 0) = terminalReadRune none ∧
    ioloopStep vim { isEscape := false, isEscapeEx := false, isEscapeSS3 := false }
        (Char.ofNat 0) rest slot =
      { state := { isEscape := false, isEscapeEx := false, isEscapeSS3 := false },
        pending := rest, sizeSlot := slot, emitted := [0], expectNextChar := true } :=
  ⟨rfl, rfl, rfl⟩

/-- C8: in select mode, Backspace leaves inCompleteMode untouched (still
true) but clears the candidate list, the comments, the chosen index and
shared offset (to -1), and the buffer snapshot (to nil), exits select mode
and reports the key as not consumed; with the snapshot gone, the next
OnComplete necessarily takes the fresh-trigger path that re-invokes the
provider. -/
theorem backspace_clears_candidate_state (vw : List Char → Nat) (s : CompleterState)
    (_hsel : s.inSelectMode = true) (hcm : s.inCompleteMode = true) :
    (handleCompleteSelect vw CharBackspace s).2 = false ∧
    (handleCompleteSelect vw CharBackspace s).1.inCompleteMode = true ∧
    (handleCompleteSelect vw CharBackspace s).1.candidate = [] ∧
    (handleCompleteSelect vw CharBackspace s).1.candidateComments = [] ∧
    (handleCompleteSelect vw CharBackspace s).1.candidateChoise = -1 ∧
    (handleCompleteSelect vw CharBackspace s).1.candidateOff = -1 ∧
    (handleCompleteSelect vw CharBackspace s).1.candidateSource = none ∧
    (handleCompleteSelect vw CharBackspace s).1.inSelectMode = false ∧
    (∀ (vw2 : List Char → Nat)
       (ac : List Char → Nat → List (List Char) × List (List Char) × Int),
      (handleCompleteSelect vw CharBackspace s).1.width ≠ 0 →
      onComplete vw2 ac (handleCompleteSelect vw CharBackspace s).1 =
        onCompleteFresh vw2 ac (handleCompleteSelect vw CharBackspace s).1) := by
  have hres : handleCompleteSelect vw CharBackspace s = (exitCompleteSelectMode s, false) := by
    simp [handleCompleteSelect, CharBackspace, CharEnter, CharCtrlJ, CharLineStart,
      CharLineEnd]
  rw [hres]
  refine ⟨rfl, by simp [hcm], rfl, rfl, rfl, rfl, rfl, rfl, ?_⟩
  intro vw2 ac hw
  simp only [onComplete, exitCompleteSelectMode_inSelectMode,
    exitCompleteSelectMode_candidateSource]
  rw [if_neg (by simpa using hw), if_neg (by simp), if_neg (by simp)]

/-- C8 witness: the theorem applied to the concrete selecting state. -/
theorem backspace_clears_candidate_state_witness :
    selectDemoState.inSelectMode = true ∧
    (handleCompleteSelect vwOne CharBackspace selectDemoState).1.candidateSource = none ∧
    (handleCompleteSelect vwOne CharBackspace selectDemoState).1.inCompleteMode = true :=
  ⟨by decide,
   (backspace_clears_candidate_state vwOne selectDemoState (by decide)
      (by decide)).2.2.2.2.2.2.1,
   (backspace_clears_candidate_state vwOne selectDemoState (by decide) (by decide)).2.1⟩

/-- C9: HandleCompleteSelect consumes the key (returns true, after
re-rendering) exactly for the pure navigation keys LineStart, LineEnd,
Tab, Forward, Backward, Next and Prev; for Enter, CtrlJ, Backspace, Bell,
Interrupt and every other key it returns false and no refresh happens. -/
theorem handleCompleteSelect_consumed_iff (vw : List Char → Nat) (r : Int)
    (s : CompleterState) :
    (handleCompleteSelect vw r s).2 = true ↔
      (r = CharLineStart ∨ r = CharLineEnd ∨ r = CharTab ∨ r = CharForward ∨
       r = CharBackward ∨ r = CharNext ∨ r = CharPrev) := by
  by_cases h1 : r = CharEnter ∨ r = CharCtrlJ
  · rcases h1 with rfl | rfl <;>
      simp [handleCompleteSelect, CharEnter, CharCtrlJ, CharLineStart, CharLineEnd,
        CharTab, CharForward, CharBackward, CharNext, CharPrev]
  by_cases h2 : r = CharLineStart
  · subst h2
    simp [handleCompleteSelect, CharLineStart, CharEnter, CharCtrlJ]
  by_cases h3 : r = CharLineEnd
  · subst h3
    simp [handleCompleteSelect, CharLineEnd, CharEnter, CharCtrlJ, CharLineStart]
  by_cases h4 : r = CharBackspace
  · subst h4
    simp [handleCompleteSelect, CharBackspace, CharEnter, CharCtrlJ, CharLineStart,
      CharLineEnd, CharTab, CharForward, CharBackward, CharNext, CharPrev]
  by_cases h5 : r = CharTab ∨ r = CharForward
  · rcases h5 with rfl | rfl <;>
      simp [handleCompleteSelect, CharTab, CharForward, CharEnter, CharCtrlJ,
        CharLineStart, CharLineEnd, CharBackspace]
  by_cases h6 : r = CharBell ∨ r = CharInterrupt
  · rcases h6 with rfl | rfl <;>
      simp [handleCompleteSelect, CharBell, CharInterrupt, CharEnter, CharCtrlJ,
        CharLineStart, CharLineEnd, CharBackspace, CharTab, CharForward, CharBackward,
        CharNext, CharPrev]
  by_cases h7 : r = CharNext
  · subst h7
    simp [handleCompleteSelect, CharNext, CharEnter, CharCtrlJ, CharLineStart,
      CharLineEnd, CharBackspace, CharTab, CharForward, CharBell, CharInterrupt]
  by_cases h8 : r = CharBackward
  · subst h8
    simp [handleCompleteSelect, CharBackward, CharEnter, CharCtrlJ, CharLineStart,
      CharLineEnd, CharBackspace, CharTab, CharForward, CharBell, CharInterrupt,
      CharNext]
  by_cases h9 : r = CharPrev
  · subst h9
    simp [handleCompleteSelect, CharPrev, CharEnter, CharCtrlJ, CharLineStart,
      CharLineEnd, CharBackspace, CharTab, CharForward, CharBell, CharInterrupt,
      CharNext, CharBackward]
  · simp only [handleCompleteSelect, if_neg h1, if_neg h2, if_neg h3, if_neg h4,
      if_neg h5, if_neg h6, if_neg h7, if_neg h8, if_neg h9]
    simp_all

/-- C1 counterexample: a fresh trigger (not selecting, snapshot differs
from the buffer) whose provider returns exactly one candidate, issued
while the engine is already in CompleteMode, does not auto-accept: the
engine stays in CompleteMode and the buffer is not written, because the
singleton shortcut of OnComplete sits inside the IsInCompleteMode guard. -/
theorem onComplete_fresh_singleton_counterexample :
    freshDemoState.inSelectMode = false ∧
    freshDemoState.inCompleteMode = true ∧
    freshDemoState.candidateSource ≠ some freshDemoState.buf.content ∧
    (singletonProvider freshDemoState.buf.content freshDemoState.buf.idx).1.length = 1 ∧
    (onComplete vwOne singletonProvider freshDemoState).1.inCompleteMode = true ∧
    (onComplete vwOne singletonProvider freshDemoState).1.buf = freshDemoState.buf := by
  decide

/-- C1 (amended): on a fresh trigger with nonzero width whose provider
returns exactly one candidate, OnComplete auto-accepts — writes the
candidate's text to the buffer and exits completion entirely, both flags
false — only when the engine was not already in CompleteMode; when it was,
OnComplete instead (re-)enters CompleteMode with that single candidate and
leaves the buffer alone. -/
theorem onComplete_fresh_singleton (vw : List Char → Nat)
    (ac : List Char → Nat → List (List Char) × List (List Char) × Int)
    (s : CompleterState) (c : List Char) (cm : List (List Char)) (off : Int)
    (hw : s.width ≠ 0) (hsel : s.inSelectMode = false)
    (hne : s.inCompleteMode = true → s.candidateSource ≠ some s.buf.content)
    (hdo : ac s.buf.content s.buf.idx = ([c], cm, off)) :
    (s.inCompleteMode = false →
      (onComplete vw ac s).1.buf = s.buf.writeRunes c ∧
      (onComplete vw ac s).1.inCompleteMode = false ∧
      (onComplete vw ac s).1.inSelectMode = false ∧
      (onComplete vw ac s).2 = true) ∧
    (s.inCompleteMode = true →
      (onComplete vw ac s).1.inCompleteMode = true ∧
      (onComplete vw ac s).1.candidate = [c] ∧
      (onComplete vw ac s).1.buf = s.buf) := by
  have hoc : onComplete vw ac s = onCompleteFresh vw ac s := by
    unfold onComplete
    rw [if_neg hw, if_neg (by simp [hsel]), if_neg (by rintro ⟨ha, hb⟩; exact hne ha hb)]
  constructor
  · intro hcm
    simp [hoc, onCompleteFresh, hdo, hcm]
  · intro hcm
    simp [hoc, onCompleteFresh, hdo, hcm]

/-- C1 witness: the amended theorem applied at the concrete fresh-trigger
states, once already in CompleteMode and once not. -/
theorem onComplete_fresh_singleton_witness :
    (freshDemoState.width ≠ 0 ∧ freshDemoState.inSelectMode = false) ∧
    (onComplete vwOne singletonProvider freshDemoState).1.candidate = [['z']] ∧
    (onComplete vwOne singletonProvider
        { freshDemoState with inCompleteMode := false }).1.buf =
      freshDemoState.buf.writeRunes ['z'] := by
  have h1 := onComplete_fresh_singleton vwOne singletonProvider freshDemoState
    ['z'] [[]] 1 (by decide) (by decide) (by decide) (by decide)
  have h2 := onComplete_fresh_singleton vwOne singletonProvider
    { freshDemoState with inCompleteMode := false }
    ['z'] [[]] 1 (by decide) (by decide) (by decide) (by decide)
  exact ⟨⟨by decide, by decide⟩, (h1.2 (by decide)).2.1, (h2.1 (by decide)).1⟩

/-- Helper: readEscKeyAux on a rune that is neither a semicolon nor a digit
stops at once, leaving the input untouched. -/
theorem readEscKeyAux_stop (acc : List Char) (t : Char) (input : List Char)
    (ht : ¬(t = ';' ∨ t.isDigit = true)) :
    readEscKeyAux acc t input = ({ attr := acc, typ := t }, input) := by
  cases input <;> simp [readEscKeyAux, ht]

/-- Helper: readEscKeyAux consumes a run of semicolon/digit runes as the
attribute and stops at the first other rune, the type letter. -/
theorem readEscKeyAux_run (a : List Char) : ∀ (acc : List Char) (r t : Char)
    (extra : List Char), (r = ';' ∨ r.isDigit = true) →
    (∀ c ∈ a, c = ';' ∨ c.isDigit = true) → ¬(t = ';' ∨ t.isDigit = true) →
    readEscKeyAux acc r (a ++ t :: extra) = ({ attr := acc ++ r :: a, typ := t }, extra) := by
  induction a with
  | nil =>
    intro acc r t extra hr _ ht
    simp only [List.nil_append, readEscKeyAux, if_pos hr]
    rw [readEscKeyAux_stop _ _ _ ht]
  | cons c a ih =>
    intro acc r t extra hr ha ht
    simp only [List.cons_append, readEscKeyAux, if_pos hr]
    have := ih (acc ++ [r]) c t extra (ha c (by simp)) (fun x hx => ha x (by simp [hx])) ht
    simpa [List.append_assoc] using this

/-- Helper: a completed CSI sequence (attribute runes, then the type
letter) drives the isEscapeEx arm of the loop body to csiHandle on exactly
that key pair, consuming the whole sequence. -/
theorem ioloopRead_csi (vim : Bool) (slot : Option (List Char)) (a extra : List Char)
    (t : Char) (ha : ∀ c ∈ a, c = ';' ∨ c.isDigit = true)
    (ht : ¬(t = ';' ∨ t.isDigit = true)) :
    ioloopRead vim { isEscape := false, isEscapeEx := true, isEscapeSS3 := false }
        (a ++ t :: extra) slot =
      some (csiHandle vim { isEscape := false, isEscapeEx := false, isEscapeSS3 := false }
        { attr := a, typ := t } extra slot) := by
  cases a with
  | nil =>
    simp only [List.nil_append, ioloopRead, ioloopStep, readEscKey]
    rw [readEscKeyAux_stop _ _ _ ht]
    simp
  | cons c a =>
    simp only [List.cons_append, ioloopRead, ioloopStep, readEscKey]
    rw [readEscKeyAux_run a [] c t extra (ha c (by simp))
      (fun x hx => ha x (by simp [hx])) ht]
    simp

/-- Helper: the SS3 analogue of ioloopRead_csi. -/
theorem ioloopRead_ss3 (vim : Bool) (slot : Option (List Char)) (a extra : List Char)
    (t : Char) (ha : ∀ c ∈ a, c = ';' ∨ c.isDigit = true)
    (ht : ¬(t = ';' ∨ t.isDigit = true)) :
    ioloopRead vim { isEscape := false, isEscapeEx := false, isEscapeSS3 := true }
        (a ++ t :: extra) slot =
      some (ss3Handle vim { isEscape := false, isEscapeEx := false, isEscapeSS3 := false }
        { attr := a, typ := t } extra slot) := by
  cases a with
  | nil =>
    simp only [List.nil_append, ioloopRead, ioloopStep, readEscKey]
    rw [readEscKeyAux_stop _ _ _ ht]
    simp
  | cons c a =>
    simp only [List.cons_append, ioloopRead, ioloopStep, readEscKey]
    rw [readEscKeyAux_run a [] c t extra (ha c (by simp))
      (fun x hx => ha x (by simp [hx])) ht]
    simp

/-- C5: completed CSI and SS3 sequences map their type letter to the
logical keys A to Prev, B to Next, C to Forward, D to Backward, H to
LineStart, F to LineEnd, and CSI tilde with attribute "3" to Delete; a
CSI type-R report is never emitted as a key — its attribute is split on
the semicolon, both fields parsed as integers, the attribute delivered to
the size-report slot on success, and malformed reports (fewer than two
fields or non-integer fields) silently discarded. -/
theorem escape_decoder_mapping (vim : Bool) (st : LoopState) (slot : Option (List Char))
    (attr a extra : List Char) (t : Char)
    (ha : ∀ c ∈ a, c = ';' ∨ c.isDigit = true)
    (ht : ¬(t = ';' ∨ t.isDigit = true)) :
    (escapeExKey { attr := attr, typ := 'A' } = CharPrev ∧
     escapeExKey { attr := attr, typ := 'B' } = CharNext ∧
     escapeExKey { attr := attr, typ := 'C' } = CharForward ∧
     escapeExKey { attr := attr, typ := 'D' } = CharBackward ∧
     escapeExKey { attr := attr, typ := 'H' } = CharLineStart ∧
     escapeExKey { attr := attr, typ := 'F' } = CharLineEnd ∧
     escapeExKey { attr := ['3'], typ := '~' } = CharDelete) ∧
    (escapeSS3Key { attr := attr, typ := 'A' } = CharPrev ∧
     escapeSS3Key { attr := attr, typ := 'B' } = CharNext ∧
     escapeSS3Key { attr := attr, typ := 'C' } = CharForward ∧
     escapeSS3Key { attr := attr, typ := 'D' } = CharBackward ∧
     escapeSS3Key { attr := attr, typ := 'H' } = CharLineStart ∧
     escapeSS3Key { attr := attr, typ := 'F' } = CharLineEnd) ∧
    (csiHandle vim st { attr := attr, typ := 'R' } extra slot).emitted = [] ∧
    ((get2 { attr := attr, typ := 'R' }).isSome = true →
      (csiHandle vim st { attr := attr, typ := 'R' } extra slot).sizeSlot =
        sendSizeReport slot attr) ∧
    (get2 { attr := attr, typ := 'R' } = none →
      (csiHandle vim st { attr := attr, typ := 'R' } extra slot).sizeSlot = slot) ∧
    ((splitOnChar ';' attr).length < 2 → get2 { attr := attr, typ := 'R' } = none) ∧
    (2 ≤ (splitOnChar ';' attr).length →
      atoi ((splitOnChar ';' attr).getD 0 []) = none →
      get2 { attr := attr, typ := 'R' } = none) ∧
    (2 ≤ (splitOnChar ';' attr).length →
      atoi ((splitOnChar ';' attr).getD 1 []) = none →
      get2 { attr := attr, typ := 'R' } = none) ∧
    (∀ v1 v2 : Int, 2 ≤ (splitOnChar ';' attr).length →
      atoi ((splitOnChar ';' attr).getD 0 []) = some v1 →
      atoi ((splitOnChar ';' attr).getD 1 []) = some v2 →
      get2 { attr := attr, typ := 'R' } = some (v1, v2)) ∧
    ioloopRead vim { isEscape := false, isEscapeEx := true, isEscapeSS3 := false }
        (a ++ t :: extra) slot =
      some (csiHandle vim { isEscape := false, isEscapeEx := false, isEscapeSS3 := false }
        { attr := a, typ := t } extra slot) ∧
    ioloopRead vim { isEscape := false, isEscapeEx := false, isEscapeSS3 := true }
        (a ++ t :: extra) slot =
      some (ss3Handle vim { isEscape := false, isEscapeEx := false, isEscapeSS3 := false }
        { attr := a, typ := t } extra slot) := by
  refine ⟨⟨rfl, rfl, rfl, rfl, rfl, rfl, rfl⟩, ⟨rfl, rfl, rfl, rfl, rfl, rfl⟩,
    rfl, ?_, ?_, ?_, ?_, ?_, ?_, ioloopRead_csi vim slot a extra t ha ht,
    ioloopRead_ss3 vim slot a extra t ha ht⟩
  · intro h
    simp [csiHandle, h]
  · intro h
    simp [csiHandle, h]
  · intro h
    simp [get2, h]
  · intro hlen h
    simp only [get2]
    rw [if_neg (Nat.not_lt.mpr hlen), h]
  · intro hlen h
    simp only [get2]
    rw [if_neg (Nat.not_lt.mpr hlen)]
    cases h0 : atoi ((splitOnChar ';' attr).getD 0 []) with
    | none => rfl
    | some v => rw [h]
  · intro v1 v2 hlen h0 h1
    simp only [get2]
    rw [if_neg (Nat.not_lt.mpr hlen), h0, h1]

/-- C5 witness: the theorem at the concrete report sequence "3;4R": the
sequence reaches csiHandle with attribute "3;4", nothing is emitted, and
the attribute is delivered to the empty size slot. -/
theorem escape_decoder_mapping_witness :
    ((∀ c ∈ ['3', ';', '4'], c = ';' ∨ c.isDigit = true) ∧
      ¬('R' = ';' ∨ ('R').isDigit = true)) ∧
    ioloopRead false { isEscape := false, isEscapeEx := true, isEscapeSS3 := false }
        (['3', ';', '4'] ++ 'R' :: []) none =
      some (csiHandle false { isEscape := false, isEscapeEx := false, isEscapeSS3 := false }
        { attr := ['3', ';', '4'], typ := 'R' } [] none) ∧
    (csiHandle false { isEscape := false, isEscapeEx := false, isEscapeSS3 := false }
        { attr := ['3', ';', '4'], typ := 'R' } [] none).emitted = [] ∧
    (csiHandle false { isEscape := false, isEscapeEx := false, isEscapeSS3 := false }
        { attr := ['3', ';', '4'], typ := 'R' } [] none).sizeSlot =
      sendSizeReport none ['3', ';', '4'] := by
  have h := escape_decoder_mapping false
    { isEscape := false, isEscapeEx := false, isEscapeSS3 := false } none
    ['3', ';', '4'] ['3', ';', '4'] [] 'R' (by decide) (by decide)
  obtain ⟨-, -, hemit, hdeliver, -, -, -, -, -, hcsi, -⟩ := h
  exact ⟨⟨by decide, by decide⟩, hcsi, hemit, hdeliver (by decide)⟩

/-- Helper: pulling an element out of a foldr over max. -/
theorem foldr_max_pull (l : List Int) : ∀ a b : Int,
    l.foldr max (max a b) = max b (l.foldr max a) := by
  induction l with
  | nil => intro a b; simp [max_comm]
  | cons y l ih =>
    intro a b
    simp only [List.foldr_cons, ih]
    rw [max_left_comm]

/-- Helper: the source's running if-maximum loop computes a foldr over max. -/
theorem foldl_ifmax_eq (l : List Int) : ∀ a : Int,
    l.foldl (fun cw w => if w > cw then w else cw) a = l.foldr max a := by
  induction l with
  | nil => intro a; rfl
  | cons x l ih =>
    intro a
    simp only [List.foldl_cons, List.foldr_cons, ih]
    have hm : (if x > a then x else a) = max a x := by
      rcases le_or_lt x a with h | h
      · rw [if_neg (by omega), max_eq_left h]
      · rw [if_pos h, max_eq_right (le_of_lt h)]
    rw [hm, foldr_max_pull]

/-- Helper: a foldr over max seeded with 0 is nonnegative. -/
theorem foldr_max_nonneg (l : List Int) : 0 ≤ l.foldr max 0 := by
  induction l with
  | nil => simp
  | cons y l ih => exact le_max_of_le_right ih

/-- Helper: the indexed comment lookup of the source's width loop agrees
with the zipped form once the comment list has the same length as the
candidate list. -/
theorem enum_map_width_eq_zip (vw : List Char → Nat) (cs ms : List (List Char))
    (h : ms.length = cs.length) :
    cs.enum.map (fun ic => (vw ic.2 : Int) + (vw (ms.getD ic.1 []) : Int)) =
      (cs.zip ms).map (fun p => (vw p.1 : Int) + (vw p.2 : Int)) := by
  apply List.ext_getElem
  · simp [h]
  · intro n h1 h2
    have hn : n < ms.length := by
      simp only [List.length_map, List.length_zip, h, min_self] at h2
      omega
    have hc : n < cs.length := by omega
    have he : n < cs.enum.length := by simpa [List.enum_length] using hc
    simp only [List.getElem_map, List.getElem_enum, List.getElem_zip]
    rw [List.getD_eq_getElem ms [] hn]

/-- Helper: goDiv on a pair of natural casts is natural division. -/
theorem goDiv_natCast (m n : Nat) : goDiv (m : Int) (n : Int) = ((m / n : Nat) : Int) := rfl

/-- Helper: Go division agrees with mathematical (Euclidean) division on
nonnegative arguments. -/
theorem goDiv_eq_ediv_of_nonneg (a b : Int) (ha : 0 ≤ a) (hb : 0 ≤ b) :
    goDiv a b = a / b := by
  obtain ⟨m, rfl⟩ := Int.eq_ofNat_of_zero_le ha
  obtain ⟨n, rfl⟩ := Int.eq_ofNat_of_zero_le hb
  rw [goDiv_natCast]
  exact_mod_cast rfl

/-- The spec-side column-width base of CompleteRefresh: the maximum over
candidates of suffix display width plus comment display width, plus the
shared-offset length, plus one separator column.  Stated from the spec's
words, for comparison with the embedded completeRefreshLayout. -/
def specColumnWidthBase (vw : List Char → Nat) (s : CompleterState) : Int :=
  ((s.candidate.zip s.candidateComments).map
    (fun p => (vw p.1 : Int) + (vw p.2 : Int))).foldr max 0 + s.candidateOff + 1

/-- C6: with completion active, CompleteRefresh computes the column width
base as the maximum candidate display width (suffix plus comment) plus
the shared-offset length plus 1; the usable width as terminal width minus
1; the column count as usable width integer-divided by the column width
(zero exactly when one column does not fit); and, when the column count
is nonzero, widens the column by the leftover width divided evenly across
columns.  The computed column count is stored in candidateColNum. -/
theorem completeRefresh_layout_spec (vw : List Char → Nat) (s : CompleterState)
    (hcm : s.inCompleteMode = true)
    (hlen : s.candidateComments.length = s.candidate.length)
    (hoff : 0 ≤ s.candidateOff) (hwidth : 1 ≤ s.width) :
    (completeRefreshLayout vw s).2 = (s.width - 1) / specColumnWidthBase vw s ∧
    ((completeRefreshLayout vw s).2 = 0 ↔ s.width - 1 < specColumnWidthBase vw s) ∧
    ((completeRefreshLayout vw s).2 ≠ 0 →
      (completeRefreshLayout vw s).1 = specColumnWidthBase vw s +
        (s.width - 1 - specColumnWidthBase vw s * (completeRefreshLayout vw s).2) /
          (completeRefreshLayout vw s).2) ∧
    ((completeRefreshLayout vw s).2 = 0 →
      (completeRefreshLayout vw s).1 = specColumnWidthBase vw s) ∧
    (completeRefresh vw s).candidateColNum = (completeRefreshLayout vw s).2 := by
  have hfold : (s.candidate.enum).foldl
      (fun cw ic =>
        let w : Int := (vw ic.2 : Int) + (vw (s.candidateComments.getD ic.1 []) : Int)
        if w > cw then w else cw) 0 =
      ((s.candidate.zip s.candidateComments).map
        (fun p => (vw p.1 : Int) + (vw p.2 : Int))).foldr max 0 := by
    rw [← List.foldl_map
      (fun ic : Nat × List Char =>
        (vw ic.2 : Int) + (vw (s.candidateComments.getD ic.1 []) : Int))
      (fun cw w => if w > cw then w else cw),
      enum_map_width_eq_zip vw _ _ hlen, foldl_ifmax_eq]
  have hbase0 : (0 : Int) ≤ ((s.candidate.zip s.candidateComments).map
      (fun p => (vw p.1 : Int) + (vw p.2 : Int))).foldr max 0 := foldr_max_nonneg _
  have hbpos : 0 < specColumnWidthBase vw s := by
    unfold specColumnWidthBase
    omega
  have husable : (0 : Int) ≤ s.width - 1 := by omega
  have hbody : completeRefreshLayout vw s =
      (if goDiv (s.width - 1) (specColumnWidthBase vw s) ≠ 0 then
          specColumnWidthBase vw s +
            goDiv (s.width - 1 - specColumnWidthBase vw s *
              goDiv (s.width - 1) (specColumnWidthBase vw s))
              (goDiv (s.width - 1) (specColumnWidthBase vw s))
        else specColumnWidthBase vw s,
       goDiv (s.width - 1) (specColumnWidthBase vw s)) := by
    simp only [completeRefreshLayout, specColumnWidthBase]
    rw [hfold]
  have hdiv : goDiv (s.width - 1) (specColumnWidthBase vw s) =
      (s.width - 1) / specColumnWidthBase vw s :=
    goDiv_eq_ediv_of_nonneg _ _ husable (le_of_lt hbpos)
  have hl2 : (completeRefreshLayout vw s).2 = (s.width - 1) / specColumnWidthBase vw s := by
    rw [hbody, hdiv]
  have hnn : 0 ≤ (s.width - 1) / specColumnWidthBase vw s :=
    Int.ediv_nonneg husable (le_of_lt hbpos)
  have hone : (1 : Int) ≤ (s.width - 1) / specColumnWidthBase vw s ↔
      1 * specColumnWidthBase vw s ≤ s.width - 1 := Int.le_ediv_iff_mul_le hbpos
  refine ⟨hl2, ?_, ?_, ?_, ?_⟩
  · rw [hl2]
    constructor
    · intro h0
      by_contra hlt
      push_neg at hlt
      have := hone.mpr (by omega)
      omega
    · intro hlt
      have hno : ¬ (1 : Int) ≤ (s.width - 1) / specColumnWidthBase vw s := by
        intro hc
        have := hone.mp hc
        omega
      omega
  · intro hne
    rw [hl2] at hne
    have hmul : specColumnWidthBase vw s * ((s.width - 1) / specColumnWidthBase vw s) ≤
        s.width - 1 := by
      have := Int.ediv_mul_le (s.width - 1) (show specColumnWidthBase vw s ≠ 0 by omega)
      calc specColumnWidthBase vw s * ((s.width - 1) / specColumnWidthBase vw s)
          = (s.width - 1) / specColumnWidthBase vw s * specColumnWidthBase vw s := by
            rw [mul_comm]
        _ ≤ s.width - 1 := this
    rw [hbody, hdiv]
    simp only [if_pos hne, Prod.fst]
    rw [goDiv_eq_ediv_of_nonneg _ _ (by omega) (by omega)]
  · intro h0
    rw [hl2] at h0
    rw [hbody, hdiv]
    simp [h0]
  · rw [completeRefresh, if_pos hcm]

/-- C6 witness: the theorem applied to the concrete selecting state (two
candidates of widths 1+0 and 1+0, offset 1, terminal width 40). -/
theorem completeRefresh_layout_spec_witness :
    (selectDemoState.inCompleteMode = true ∧
      selectDemoState.candidateComments.length = selectDemoState.candidate.length ∧
      0 ≤ selectDemoState.candidateOff ∧ 1 ≤ selectDemoState.width) ∧
    (completeRefreshLayout vwOne selectDemoState).2 =
      (selectDemoState.width - 1) / specColumnWidthBase vwOne selectDemoState ∧
    (completeRefresh vwOne selectDemoState).candidateColNum =
      (completeRefreshLayout vwOne selectDemoState).2 := by
  have h := completeRefresh_layout_spec vwOne selectDemoState (by decide) (by decide)
    (by decide) (by decide)
  exact ⟨⟨by decide, by decide, by decide, by decide⟩, h.1, h.2.2.2.2⟩

/-- Helper: Go remainder on a nonnegative dividend (constructor form). -/
theorem tmod_ofNat_cast (m n : Nat) :
    Int.tmod (Int.ofNat m) (n : Int) = ((m % n : Nat) : Int) := rfl

/-- Helper: Go remainder on a negative dividend (constructor form). -/
theorem tmod_negSucc_cast (m n : Nat) :
    Int.tmod (Int.negSucc m) (n : Int) = -(((m + 1) % n : Nat) : Int) := rfl

/-- Helper: goDiv and goMod on casts of naturals compute in the naturals. -/
theorem goMod_natCast (m n : Nat) : goMod (m : Int) (n : Int) = ((m % n : Nat) : Int) := rfl

/-- Helper: the remainder-then-fixup idiom of nextCandidate lands in
[0, b) for every dividend once the divisor b is positive. -/
theorem goMod_fixup_bounds (a b : Int) (hb : 0 < b) :
    0 ≤ (if goMod a b < 0 then b + goMod a b else goMod a b) ∧
    (if goMod a b < 0 then b + goMod a b else goMod a b) < b := by
  obtain ⟨n, rfl⟩ := Int.eq_ofNat_of_zero_le hb.le
  have hn : 0 < n := by exact_mod_cast hb
  simp only [goMod]
  cases a with
  | ofNat m =>
    rw [tmod_ofNat_cast]
    have := Nat.mod_lt m hn
    split <;> omega
  | negSucc m =>
    rw [tmod_negSucc_cast]
    have := Nat.mod_lt (m + 1) hn
    split <;> omega

/-- Helper: goMod of a nonnegative value by a positive value lies in
[0, b). -/
theorem goMod_nonneg_bounds (a b : Int) (ha : 0 ≤ a) (hb : 0 < b) :
    0 ≤ goMod a b ∧ goMod a b < b := by
  obtain ⟨m, rfl⟩ := Int.eq_ofNat_of_zero_le ha
  obtain ⟨n, rfl⟩ := Int.eq_ofNat_of_zero_le hb.le
  have hn : 0 < n := by exact_mod_cast hb
  rw [goMod_natCast]
  have := Nat.mod_lt m hn
  constructor <;> omega

/-- Helper: nextCandidate places the chosen index in range for any step,
from any starting index, whenever at least one candidate exists. -/
theorem nextCandidate_bound (i : Int) (s : CompleterState)
    (hn : 1 ≤ s.candidate.length) :
    0 ≤ (nextCandidate i s).candidateChoise ∧
    (nextCandidate i s).candidateChoise < (s.candidate.length : Int) := by
  have hb : (0 : Int) < (s.candidate.length : Int) := by exact_mod_cast hn
  have h := goMod_fixup_bounds (s.candidateChoise + i) (s.candidate.length : Int) hb
  simpa [nextCandidate] using h

/-- Helper: doSelect establishes the selection bound: it either leaves
completion (no longer selecting) or advances the index into range. -/
theorem doSelect_bound (vw : List Char → Nat) (s : CompleterState)
    (hn : 1 ≤ s.candidate.length) : selBound (doSelect vw s) := by
  unfold doSelect
  by_cases hl : s.candidate.length = 1
  · rw [if_pos hl]
    intro hsel
    simp at hsel
  · rw [if_neg hl]
    intro _
    simpa using nextCandidate_bound 1 s hn

/-- Helper: arithmetic facts about the padded matrix size
ceil(n/k)*k computed by getMatrixSize. -/
theorem matrix_facts (n k : Nat) (hk : 0 < k) (hn : 0 < n) :
    n ≤ (if n % k ≠ 0 then n / k + 1 else n / k) * k ∧
    (if n % k ≠ 0 then n / k + 1 else n / k) * k < n + k ∧
    k ≤ (if n % k ≠ 0 then n / k + 1 else n / k) * k ∧
    ((if n % k ≠ 0 then n / k + 1 else n / k) * k = k ∨
      2 * k ≤ (if n % k ≠ 0 then n / k + 1 else n / k) * k) := by
  have hdm := Nat.div_add_mod n k
  have hmlt := Nat.mod_lt n hk
  by_cases h0 : n % k = 0
  · rw [if_neg (by omega)]
    have hq1 : 1 ≤ n / k := by
      by_contra hq
      push_neg at hq
      have hz : n / k = 0 := Nat.lt_one_iff.mp hq
      rw [hz, Nat.mul_zero] at hdm
      omega
    have hle : k ≤ k * (n / k) := Nat.le_mul_of_pos_right k hq1
    have hcm : (n / k) * k = k * (n / k) := Nat.mul_comm _ _
    refine ⟨by omega, by omega, by omega, ?_⟩
    by_cases hq2 : n / k = 1
    · left
      rw [hq2, Nat.one_mul]
    · right
      have h2 : 2 ≤ n / k := by omega
      have := Nat.mul_le_mul_right k h2
      omega
  · rw [if_pos h0]
    have hexp : (n / k + 1) * k = (n / k) * k + k := Nat.succ_mul (n / k) k
    have hcm : (n / k) * k = k * (n / k) := Nat.mul_comm _ _
    have hr : 0 < n % k := Nat.pos_of_ne_zero h0
    refine ⟨by omega, by omega, by omega, ?_⟩
    rcases Nat.eq_zero_or_pos (n / k) with hz | hp
    · left
      rw [hz, Nat.zero_add, Nat.one_mul]
    · right
      have hle : k ≤ k * (n / k) := Nat.le_mul_of_pos_right k hp
      omega

/-- Helper: getMatrixSize as a cast of the natural ceil(n/k)*k once the
column count is the cast of k. -/
theorem getMatrixSize_natCast (s : CompleterState) (k : Nat)
    (hk : s.candidateColNum = (k : Int)) :
    getMatrixSize s =
      (((if s.candidate.length % k ≠ 0 then s.candidate.length / k + 1
        else s.candidate.length / k) * k : Nat) : Int) := by
  simp only [getMatrixSize, hk, goDiv_natCast, goMod_natCast, ne_eq, Nat.cast_eq_zero]
  split_ifs with h <;> push_cast <;> ring

/-- C3 counterexample: EnterCompleteSelectMode does not establish the
selection bound: from a two-candidate state it enters select mode with
the chosen index set to the sentinel -1, outside [0, 2). -/
theorem enter_select_mode_counterexample :
    (enterCompleteSelectMode vwOne
      { selectDemoState with inSelectMode := false }).inSelectMode = true ∧
    (enterCompleteSelectMode vwOne
      { selectDemoState with inSelectMode := false }).candidate.length = 2 ∧
    (enterCompleteSelectMode vwOne
      { selectDemoState with inSelectMode := false }).candidateChoise = -1 ∧
    ¬ (0 ≤ (enterCompleteSelectMode vwOne
      { selectDemoState with inSelectMode := false }).candidateChoise) := by
  decide

/-- C3 (amended): given at least one candidate, at least one column, and a
chosen index already in range, the bound "selecting implies the chosen
index lies in [0, number of candidates)" is established or preserved by
nextCandidate (for any step), doSelect, HandleCompleteSelect (for every
key), and by the doSelect that immediately follows EnterCompleteSelectMode
on OnComplete's re-entry path; EnterCompleteSelectMode alone instead sets
the chosen index to the out-of-range sentinel -1. -/
theorem selection_bound_invariant (vw : List Char → Nat) (r i : Int)
    (s : CompleterState) (hn : 1 ≤ s.candidate.length)
    (hcol : 1 ≤ s.candidateColNum) (hlo : 0 ≤ s.candidateChoise)
    (hhi : s.candidateChoise < (s.candidate.length : Int)) :
    selBound (nextCandidate i s) ∧
    selBound (doSelect vw s) ∧
    selBound (doSelect vw (enterCompleteSelectMode vw s)) ∧
    selBound ((handleCompleteSelect vw r s).1) := by
  obtain ⟨k, hk⟩ := Int.eq_ofNat_of_zero_le (show (0 : Int) ≤ s.candidateColNum by omega)
  have hk1 : 1 ≤ k := by
    rw [hk] at hcol
    exact_mod_cast hcol
  have hmf := matrix_facts s.candidate.length k (by omega) (by omega)
  have hms := getMatrixSize_natCast s k hk
  have hNM : (s.candidate.length : Int) ≤ getMatrixSize s := by
    rw [hms]; exact_mod_cast hmf.1
  have hMNK : getMatrixSize s < (s.candidate.length : Int) + (k : Int) := by
    rw [hms]; exact_mod_cast hmf.2.1
  have hKM : (k : Int) ≤ getMatrixSize s := by
    rw [hms]; exact_mod_cast hmf.2.2.1
  have hMK : getMatrixSize s = (k : Int) ∨ 2 * (k : Int) ≤ getMatrixSize s := by
    rcases hmf.2.2.2 with h | h
    · left; rw [hms]; exact_mod_cast h
    · right; rw [hms]; exact_mod_cast h
  refine ⟨fun _ => nextCandidate_bound i s hn, doSelect_bound vw s hn,
    doSelect_bound vw (enterCompleteSelectMode vw s) (by simpa using hn), ?_⟩
  by_cases h1 : r = CharEnter ∨ r = CharCtrlJ
  · rcases h1 with rfl | rfl
    · intro hsel
      rw [show handleCompleteSelect vw CharEnter s =
          (exitCompleteMode false
            { s with
                buf := s.buf.writeRunes (s.candidate.getD s.candidateChoise.toNat []) },
           false) from rfl] at hsel
      simp at hsel
    · intro hsel
      rw [show handleCompleteSelect vw CharCtrlJ s =
          (exitCompleteMode false
            { s with
                buf := s.buf.writeRunes (s.candidate.getD s.candidateChoise.toNat []) },
           false) from rfl] at hsel
      simp at hsel
  by_cases h2 : r = CharLineStart
  · subst h2
    rw [show handleCompleteSelect vw CharLineStart s =
        (completeRefresh vw
          (nextCandidate (-(goMod s.candidateChoise s.candidateColNum)) s), true) from rfl]
    intro _
    simpa using nextCandidate_bound (-(goMod s.candidateChoise s.candidateColNum)) s hn
  by_cases h3 : r = CharLineEnd
  · subst h3
    rw [show handleCompleteSelect vw CharLineEnd s =
        (completeRefresh vw
          { s with
              candidateChoise :=
                if s.candidateChoise +
                    (s.candidateColNum - goMod s.candidateChoise s.candidateColNum - 1) ≥
                    (s.candidate.length : Int) then
                  (s.candidate.length : Int) - 1
                else
                  s.candidateChoise +
                    (s.candidateColNum - goMod s.candidateChoise s.candidateColNum - 1) },
         true) from rfl]
    intro _
    have hg := goMod_nonneg_bounds s.candidateChoise s.candidateColNum hlo (by omega)
    simp only [completeRefresh_candidateChoise, completeRefresh_candidate]
    split_ifs <;> constructor <;> omega
  by_cases h4 : r = CharBackspace
  · subst h4
    intro hsel
    rw [show handleCompleteSelect vw CharBackspace s =
        (exitCompleteSelectMode s, false) from rfl] at hsel
    simp at hsel
  by_cases h5 : r = CharTab ∨ r = CharForward
  · have hd := doSelect_bound vw s hn
    rcases h5 with rfl | rfl
    · rw [show handleCompleteSelect vw CharTab s =
          (completeRefresh vw (doSelect vw s), true) from rfl]
      intro hsel
      have := hd (by simpa using hsel)
      simpa using this
    · rw [show handleCompleteSelect vw CharForward s =
          (completeRefresh vw (doSelect vw s), true) from rfl]
      intro hsel
      have := hd (by simpa using hsel)
      simpa using this
  by_cases h6 : r = CharBell ∨ r = CharInterrupt
  · rcases h6 with rfl | rfl
    · intro hsel
      rw [show handleCompleteSelect vw CharBell s =
          (exitCompleteMode true s, false) from rfl] at hsel
      simp at hsel
    · intro hsel
      rw [show handleCompleteSelect vw CharInterrupt s =
          (exitCompleteMode true s, false) from rfl] at hsel
      simp at hsel
  by_cases h7 : r = CharNext
  · subst h7
    rw [show handleCompleteSelect vw CharNext s =
        (completeRefresh vw
          { s with
              candidateChoise :=
                if s.candidateChoise + s.candidateColNum ≥ getMatrixSize s then
                  s.candidateChoise + s.candidateColNum - getMatrixSize s
                else
                  if s.candidateChoise + s.candidateColNum ≥
                      (s.candidate.length : Int) then
                    s.candidateChoise + s.candidateColNum + s.candidateColNum -
                      getMatrixSize s
                  else s.candidateChoise + s.candidateColNum },
         true) from rfl]
    intro _
    simp only [completeRefresh_candidateChoise, completeRefresh_candidate]
    rw [hk]
    rcases hMK with h | h <;> split_ifs <;> constructor <;> omega
  by_cases h8 : r = CharBackward
  · subst h8
    rw [show handleCompleteSelect vw CharBackward s =
        (completeRefresh vw (nextCandidate (-1) s), true) from rfl]
    intro _
    simpa using nextCandidate_bound (-1) s hn
  by_cases h9 : r = CharPrev
  · subst h9
    rw [show handleCompleteSelect vw CharPrev s =
        (completeRefresh vw
          { s with
              candidateChoise :=
                if s.candidateChoise - s.candidateColNum < 0 then
                  if s.candidateChoise - s.candidateColNum + getMatrixSize s ≥
                      (s.candidate.length : Int) then
                    s.candidateChoise - s.candidateColNum + getMatrixSize s -
                      s.candidateColNum
                  else s.candidateChoise - s.candidateColNum + getMatrixSize s
                else s.candidateChoise - s.candidateColNum },
         true) from rfl]
    intro _
    simp only [completeRefresh_candidateChoise, completeRefresh_candidate]
    rw [hk]
    rcases hMK with h | h <;> split_ifs <;> constructor <;> omega
  · intro hsel
    simp only [handleCompleteSelect, if_neg h1, if_neg h2, if_neg h3, if_neg h4,
      if_neg h5, if_neg h6, if_neg h7, if_neg h8, if_neg h9] at hsel
    simp at hsel

/-- C3 witness: the amended theorem applied to the concrete selecting state
with two candidates, two columns, chosen index 0, stepping with Next. -/
theorem selection_bound_invariant_witness :
    (1 ≤ selectDemoState.candidate.length ∧ 1 ≤ selectDemoState.candidateColNum ∧
      0 ≤ selectDemoState.candidateChoise ∧
      selectDemoState.candidateChoise < (selectDemoState.candidate.length : Int)) ∧
    selBound ((handleCompleteSelect vwOne CharNext selectDemoState).1) :=
  ⟨⟨by decide, by decide, by decide, by decide⟩,
   (selection_bound_invariant vwOne CharNext 1 selectDemoState (by decide) (by decide)
      (by decide) (by decide)).2.2.2⟩

end Readline
